import Mathlib

/-!
Verification of the pagination and request-construction engine of the
dataprep data connector (`dataprep/data_connector/connector.py`).

The embedding translates `Connector._fetch` and `Connector.query` into pure
Lean functions.  External collaborators (the HTTP transport plus request
building, and the response decoder `ImplicitTable.from_response`) are modelled
as function parameters bundled in `QEnv`.  Python dictionaries become
association lists with first-match lookup semantics (`VarMap`); pandas
DataFrames become an index list plus a row list (`DataFrame`), so that label
based column access, `pd.concat` and `reset_index(drop=True)` can be modelled
faithfully.  Each issued page request is recorded observationally in a
`PageCall` trace (the `where` dictionary at call time, the merged template
variable context after the reserved-name rename, and the transport response);
the trace does not influence control flow.
-/

set_option autoImplicit false

namespace DataPrep

/-- A template variable value: the engine only computes with integers and
strings (row counts, cursor ids, rendered text). -/
inductive Val where
  | vInt : Int → Val
  | vStr : String → Val
deriving DecidableEq, Repr

/-- A Python dict of template variables, as an association list with
first-match lookup. -/
abbrev VarMap := List (String × Val)

/-- Dictionary lookup (`d[k]` / `d.get(k)`): first entry with the key. -/
def vget : VarMap → String → Option Val
  | [], _ => none
  | (k, v) :: rest, key => if k = key then some v else vget rest key

/-- Dictionary assignment `d[k] = v`: replace the value in place if the key is
present, otherwise append the new entry (Python dict insertion order). -/
def vset : VarMap → String → Val → VarMap
  | [], key, v => [(key, v)]
  | (k, w) :: rest, key, v =>
      if k = key then (k, v) :: rest else (k, w) :: vset rest key v

/-- Dictionary deletion (the removal half of `d.pop(k)`). -/
def verase (m : VarMap) (key : String) : VarMap :=
  m.filter (fun kv => kv.1 != key)

/-- Membership test `k in d`. -/
def vmem (m : VarMap) (k : String) : Bool :=
  (vget m k).isSome

/-- Python `{**a, **b}`: keys of `a` in order, values overridden by `b` on
collision, then the keys of `b` that are not in `a`, in order. -/
def dictMerge (a b : VarMap) : VarMap :=
  a.map (fun kv => (kv.1, (vget b kv.1).getD kv.2)) ++
    b.filter (fun kv => !(vmem a kv.1))

/-- Python `int(x)`: an int stays; a string is parsed as an integer literal. -/
def valToInt : Val → Option Int
  | .vInt i => some i
  | .vStr s => s.toInt?

/-- A pandas DataFrame, reduced to what the engine touches: the row index
labels and the rows (each row a mapping from column name to value). -/
structure DataFrame where
  index : List Int
  rows : List VarMap
deriving DecidableEq, Repr

/-- Number of rows, `len(df)`. -/
def DataFrame.nrows (df : DataFrame) : Nat := df.rows.length

/-- Label-based access `df[col][lbl]`: locate the first row whose index label
is `lbl`, then read the column; `none` models the KeyError cases. -/
def dfColGet (df : DataFrame) (col : String) (lbl : Int) : Option Val :=
  match df.index.indexOf? lbl with
  | some i =>
      match df.rows.get? i with
      | some row => vget row col
      | none => none
  | none => none

/-- Row-wise `pd.concat([a, b], axis=0)`: indexes and rows are concatenated,
original labels kept. -/
def dfConcat (a b : DataFrame) : DataFrame :=
  ⟨a.index ++ b.index, a.rows ++ b.rows⟩

/-- `df.reset_index(drop=True)`: the index becomes the dense 0-based range,
rows unchanged. -/
def resetIndex (df : DataFrame) : DataFrame :=
  ⟨(List.range df.rows.length).map Int.ofNat, df.rows⟩

/-- The errors the embedded engine can surface.  `requestError` is the
connector error type for a non-success transport status; `keyError`,
`valueError`, `typeError` and `attributeError` model the corresponding Python
exceptions escaping `query` (missing cursor column or label, failed `int()`
conversion, arithmetic on a non-numeric `returned_number`, and
`reset_index` called on the initial empty list accumulator). -/
inductive QError where
  | requestError : Int → String → QError
  | keyError : QError
  | valueError : QError
  | typeError : QError
  | attributeError : QError
deriving DecidableEq, Repr

/-- An HTTP response as the engine sees it: `status_code` and `text`. -/
structure Response where
  status_code : Int
  text : String
deriving DecidableEq, Repr

/-- The pagination-relevant part of the source configuration
(`config["request"]["paganition"]` in the source, sic).  `pag_type` is the
strategy tag: `"cursor"`, `"limit"` (the offset strategy of the spec), or
anything else for the `none` strategy. -/
structure PagConfig where
  pag_type : String
  max_count : Int
  count_key : String
  cursor_key : String
  anchor_key : String
  cursor_id : String
deriving DecidableEq, Repr

/-- The connector attributes `query` and `_fetch` can read or write:
`self.vars` (connector-level default variables) and `self.auth_params`
(connector-level default auth parameters). -/
structure Connector where
  vars : VarMap
  auth_params : VarMap
deriving DecidableEq, Repr

/-- External collaborators: `send` is the composite of request building,
authorization and the HTTP transport (a function of the effective auth
parameters and the rendered-variable context), and `from_response` is the
decoder `ImplicitTable.from_response`. -/
structure QEnv where
  send : VarMap → VarMap → Response
  from_response : Response → DataFrame

/-- Observational record of one `_fetch` call: the `where` dictionary passed
in (`kwargs`), the merged template variable context after the reserved-name
rename (`ctx`, the context every template field group is rendered against),
and the transport response. -/
structure PageCall where
  kwargs : VarMap
  ctx : VarMap
  resp : Response
deriving DecidableEq, Repr

/-- Python `auth_params or self.auth_params` in `_fetch`: a `None` or empty
override falls back to the connector-level auth parameters. -/
def effAuth (selfAuth : VarMap) (override : Option VarMap) : VarMap :=
  match override with
  | none => selfAuth
  | some a => if a.isEmpty then selfAuth else a

/-- The reserved-name rename in `_fetch`: if `"returned_number"` is present
in the merged variables it is popped and its value re-bound under the
configured `count_key`, before any template rendering. -/
def renameCount (merged : VarMap) (count_key : String) : VarMap :=
  match vget merged "returned_number" with
  | some v => vset (verase merged "returned_number") count_key v
  | none => merged

/-- `Connector._fetch`: merge `self.vars` with the per-call `kwargs`
(call-time values win), rename the reserved `"returned_number"` key to the
configured count key, build and send the request (modelled by `env.send`
applied to the effective auth parameters and the rendered-variable context),
and require status 200; any other status raises `RequestError` with the
status code and response body.  The `PageCall` is the observational record of
the call. -/
def fetch (vars : VarMap) (count_key : String) (auth : VarMap)
    (kwargs : VarMap) (env : QEnv) : PageCall × Except QError Response :=
  let ctx := renameCount (dictMerge vars kwargs) count_key
  let resp := env.send auth ctx
  let call : PageCall := ⟨kwargs, ctx, resp⟩
  if resp.status_code ≠ 200 then
    (call, .error (.requestError resp.status_code resp.text))
  else
    (call, .ok resp)

/-- Python `math.ceil(r / m)` on integers, via floor division:
`ceil(r / m) = -((-r) // m)`. -/
def pyCeil (r m : Int) : Int := -((-r).ediv m)

/-- The requested size of page `i` (0-based): `max_count` for every page
before the last; for the last page, `remain` if nonzero else `max_count`. -/
def pageSize (nPage remain m : Int) (i : Nat) : Int :=
  if (i : Int) < nPage - 1 then m else if remain ≠ 0 then remain else m

/-- The in-place updates the loop body applies to the shared `where`
dictionary before fetching page `i`: set `"returned_number"` to the page
size; for the cursor strategy and `i > 0`, set the cursor key to
`last_id - 1`; for the `"limit"` (offset) strategy, set the anchor key to
`i * max_count`. -/
def stepKwargs (cfg : PagConfig) (nPage remain : Int) (i : Nat)
    (last_id : Int) (whr : VarMap) : VarMap :=
  let w := vset whr "returned_number" (.vInt (pageSize nPage remain cfg.max_count i))
  let w := if cfg.pag_type = "cursor" ∧ 0 < i then
      vset w cfg.cursor_key (.vInt (last_id - 1)) else w
  if cfg.pag_type = "limit" then
      vset w cfg.anchor_key (.vInt ((i : Int) * cfg.max_count)) else w

/-- Label-based extraction of the cursor value from a freshly decoded page:
`int(df[cursor_id][len(df) - 1])`, with the Python KeyError and ValueError
cases made explicit. -/
def lastLabelInt (df : DataFrame) (col : String) : Except QError Int :=
  match dfColGet df col ((df.nrows : Int) - 1) with
  | none => .error .keyError
  | some v =>
      match valToInt v with
      | none => .error .valueError
      | some n => .ok n

/-- The mutable state of the page loop: the shared `where` dictionary, the
cursor state `last_id`, the accumulator `df` (`none` models the initial
Python list `[]`), and the observational traces of issued calls and decoded
pages. -/
structure LoopSt where
  whr : VarMap
  last_id : Int
  acc : Option DataFrame
  calls : List PageCall
  pages : List DataFrame

/-- The accumulator update at the end of a loop iteration: at `i = 0` the
page becomes the running result (`df = df_.copy()`), afterwards it is
appended (`pd.concat([df, df_], axis=0)`).  The `getD` default is never
reached, because iteration 0 always runs first and sets the accumulator. -/
def accumulate (st : LoopSt) (i : Nat) (df_ : DataFrame) : LoopSt :=
  if i = 0 then { st with acc := some df_ }
  else { st with acc := some (dfConcat (st.acc.getD ⟨[], []⟩) df_) }

/-- One iteration of the page loop of `Connector.query` at index `i`:
update the shared `where` dictionary, fetch, decode, update the cursor state
(cursor strategy only), and accumulate.  Returns the new state and `some e`
if the iteration raised. -/
def pageStep (cfg : PagConfig) (env : QEnv) (vars auth : VarMap)
    (nPage remain : Int) (i : Nat) (st : LoopSt) : LoopSt × Option QError :=
  let w := stepKwargs cfg nPage remain i st.last_id st.whr
  let call := (fetch vars cfg.count_key auth w env).1
  match (fetch vars cfg.count_key auth w env).2 with
  | .error e =>
      ({ st with whr := w, calls := st.calls ++ [call] }, some e)
  | .ok resp =>
      let df_ := env.from_response resp
      let st1 := { st with whr := w, calls := st.calls ++ [call],
                           pages := st.pages ++ [df_] }
      if cfg.pag_type = "cursor" then
        match lastLabelInt df_ cfg.cursor_id with
        | .error e => (st1, some e)
        | .ok n => (accumulate { st1 with last_id := n - 1 } i df_, none)
      else (accumulate st1 i df_, none)

/-- The page loop `for i in range(n_page)`, starting at index `i` with `k`
iterations left; stops early when an iteration raises. -/
def runFrom (cfg : PagConfig) (env : QEnv) (vars auth : VarMap)
    (nPage remain : Int) : Nat → Nat → LoopSt → LoopSt × Option QError
  | _, 0, st => (st, none)
  | i, k + 1, st =>
      match pageStep cfg env vars auth nPage remain i st with
      | (st1, none) => runFrom cfg env vars auth nPage remain (i + 1) k st1
      | (st1, some e) => (st1, some e)

/-- The full result of one `Connector.query` call: the connector state on
return, the trace of issued page requests, the trace of decoded pages, and
the returned table or the raised error. -/
structure QueryOut where
  conn : Connector
  calls : List PageCall
  pages : List DataFrame
  res : Except QError DataFrame

/-- The body of `Connector.query` (everything after the table lookup),
producing the call and page traces alongside the result. -/
def queryCore (conn : Connector) (cfg : PagConfig)
    (auth_params : Option VarMap) (whr : VarMap) (env : QEnv) :
    List PageCall × List DataFrame × Except QError DataFrame :=
  let auth := effAuth conn.auth_params auth_params
  match vget whr "returned_number" with
  | none =>
      let whr1 := vset whr "returned_number" (.vInt cfg.max_count)
      let call := (fetch conn.vars cfg.count_key auth whr1 env).1
      match (fetch conn.vars cfg.count_key auth whr1 env).2 with
      | .error e => ([call], [], .error e)
      | .ok resp =>
          let df := env.from_response resp
          ([call], [df], .ok df)
  | some (.vInt r) =>
      let nPage : Int := pyCeil r cfg.max_count
      let remain : Int := r.emod cfg.max_count
      let st0 : LoopSt := ⟨whr, 0, none, [], []⟩
      let run := runFrom cfg env conn.vars auth nPage remain 0 nPage.toNat st0
      match run.2 with
      | some e => (run.1.calls, run.1.pages, .error e)
      | none =>
          match run.1.acc with
          | none => (run.1.calls, run.1.pages, .error .attributeError)
          | some df => (run.1.calls, run.1.pages, .ok (resetIndex df))
  | some (.vStr _) => ([], [], .error .typeError)

/-- `Connector.query`: the connector state is threaded through and returned;
the source contains no assignment to `self.vars` or `self.auth_params`, so
the returned state is the input state. -/
def query (conn : Connector) (cfg : PagConfig) (auth_params : Option VarMap)
    (whr : VarMap) (env : QEnv) : QueryOut :=
  let core := queryCore conn cfg auth_params whr env
  ⟨conn, core.1, core.2.1, core.2.2⟩

/-! Dictionary lemmas. -/

theorem vget_vset_self (m : VarMap) (k : String) (v : Val) :
    vget (vset m k v) k = some v := by
  induction m with
  | nil => simp [vget, vset]
  | cons kv rest ih =>
    obtain ⟨a, b⟩ := kv
    by_cases h : a = k
    · simp [vset, vget, h]
    · simp [vset, vget, h, ih]

theorem vget_vset_ne (m : VarMap) (k1 k : String) (v : Val) (h : k1 ≠ k) :
    vget (vset m k1 v) k = vget m k := by
  induction m with
  | nil => simp [vget, vset, h]
  | cons kv rest ih =>
    obtain ⟨a, b⟩ := kv
    by_cases ha : a = k1
    · subst ha
      simp [vset, vget, h]
    · simp [vset, vget, ha, ih]

theorem vget_vset_isSome (m : VarMap) (k1 k : String) (v : Val)
    (h : (vget m k).isSome) : (vget (vset m k1 v) k).isSome := by
  by_cases hk : k1 = k
  · subst hk
    simp [vget_vset_self]
  · rw [vget_vset_ne m k1 k v hk]
    exact h

theorem vget_verase_self (m : VarMap) (k : String) :
    vget (verase m k) k = none := by
  induction m with
  | nil => simp [verase, vget]
  | cons kv rest ih =>
    obtain ⟨a, b⟩ := kv
    by_cases h : a = k
    · simpa [verase, vget, h] using ih
    · simpa [verase, vget, h] using ih

theorem vget_append (l1 l2 : VarMap) (k : String) :
    vget (l1 ++ l2) k = (vget l1 k).or (vget l2 k) := by
  induction l1 with
  | nil => simp [vget]
  | cons kv rest ih =>
    obtain ⟨a, b⟩ := kv
    by_cases h : a = k
    · simp [vget, h]
    · simp [vget, h, ih]

theorem vget_mapOverride (a b : VarMap) (k : String) :
    vget (a.map (fun kv => (kv.1, (vget b kv.1).getD kv.2))) k =
      (vget a k).map (fun v => (vget b k).getD v) := by
  induction a with
  | nil => simp [vget]
  | cons kv rest ih =>
    obtain ⟨a0, b0⟩ := kv
    by_cases h : a0 = k
    · subst h
      simp [vget]
    · simp [vget, h, ih]

theorem vget_filterNotMem (a b : VarMap) (k : String) (h : vget a k = none) :
    vget (b.filter (fun kv => !(vmem a kv.1))) k = vget b k := by
  induction b with
  | nil => simp
  | cons kv rest ih =>
    obtain ⟨a0, b0⟩ := kv
    by_cases hk : a0 = k
    · subst hk
      have : vmem a a0 = false := by simp [vmem, h]
      simp [List.filter, this, vget]
    · cases hm : vmem a a0 with
      | true => simpa [List.filter, hm, vget, hk] using ih
      | false => simpa [List.filter, hm, vget, hk] using ih

theorem vget_dictMerge (a b : VarMap) (k : String) :
    vget (dictMerge a b) k = (vget b k).or (vget a k) := by
  unfold dictMerge
  rw [vget_append, vget_mapOverride]
  cases ha : vget a k with
  | none =>
    rw [vget_filterNotMem a b k ha]
    cases vget b k <;> simp
  | some v =>
    cases hb : vget b k <;> simp [hb]

/-! Lemmas about the reserved-name rename. -/

theorem renameCount_count (merged : VarMap) (ck : String) (v : Val)
    (h : vget merged "returned_number" = some v) :
    vget (renameCount merged ck) ck = some v := by
  unfold renameCount
  rw [h]
  exact vget_vset_self _ _ _

theorem renameCount_gone (merged : VarMap) (ck : String) (v : Val)
    (h : vget merged "returned_number" = some v)
    (hck : ck ≠ "returned_number") :
    vget (renameCount merged ck) "returned_number" = none := by
  unfold renameCount
  rw [h, vget_vset_ne _ _ _ _ hck]
  exact vget_verase_self _ _

/-! Lemmas about the per-page update of the shared variables dictionary. -/

theorem stepKwargs_count (cfg : PagConfig) (nPage remain : Int) (i : Nat)
    (lid : Int) (whr : VarMap)
    (hck : cfg.cursor_key ≠ "returned_number")
    (hak : cfg.anchor_key ≠ "returned_number") :
    vget (stepKwargs cfg nPage remain i lid whr) "returned_number" =
      some (.vInt (pageSize nPage remain cfg.max_count i)) := by
  unfold stepKwargs
  dsimp only
  split
  · split
    · rw [vget_vset_ne _ _ _ _ hak, vget_vset_ne _ _ _ _ hck]
      exact vget_vset_self _ _ _
    · rw [vget_vset_ne _ _ _ _ hak]
      exact vget_vset_self _ _ _
  · split
    · rw [vget_vset_ne _ _ _ _ hck]
      exact vget_vset_self _ _ _
    · exact vget_vset_self _ _ _

theorem stepKwargs_count_isSome (cfg : PagConfig) (nPage remain : Int)
    (i : Nat) (lid : Int) (whr : VarMap) :
    (vget (stepKwargs cfg nPage remain i lid whr) "returned_number").isSome := by
  unfold stepKwargs
  have h0 : (vget (vset whr "returned_number"
      (.vInt (pageSize nPage remain cfg.max_count i))) "returned_number").isSome := by
    simp [vget_vset_self]
  split
  · split
    · exact vget_vset_isSome _ _ _ _ (vget_vset_isSome _ _ _ _ h0)
    · exact vget_vset_isSome _ _ _ _ h0
  · split
    · exact vget_vset_isSome _ _ _ _ h0
    · exact h0

theorem stepKwargs_anchor (cfg : PagConfig) (nPage remain : Int) (i : Nat)
    (lid : Int) (whr : VarMap) (hlim : cfg.pag_type = "limit") :
    vget (stepKwargs cfg nPage remain i lid whr) cfg.anchor_key =
      some (.vInt ((i : Int) * cfg.max_count)) := by
  unfold stepKwargs
  rw [if_pos hlim]
  exact vget_vset_self _ _ _

theorem stepKwargs_cursor_pos (cfg : PagConfig) (nPage remain : Int) (i : Nat)
    (lid : Int) (whr : VarMap) (hcur : cfg.pag_type = "cursor") (hi : 0 < i) :
    vget (stepKwargs cfg nPage remain i lid whr) cfg.cursor_key =
      some (.vInt (lid - 1)) := by
  unfold stepKwargs
  rw [if_neg (by rw [hcur]; decide), if_pos ⟨hcur, hi⟩]
  exact vget_vset_self _ _ _

theorem stepKwargs_cursor_zero (cfg : PagConfig) (nPage remain : Int)
    (lid : Int) (whr : VarMap) (hcur : cfg.pag_type = "cursor")
    (hck : cfg.cursor_key ≠ "returned_number") :
    vget (stepKwargs cfg nPage remain 0 lid whr) cfg.cursor_key =
      vget whr cfg.cursor_key := by
  unfold stepKwargs
  dsimp only
  rw [if_neg (by rw [hcur]; decide), if_neg (by simp)]
  exact vget_vset_ne _ _ _ _ (Ne.symm hck)

/-! Lemmas about a single fetch. -/

theorem fetch_fst (vars : VarMap) (ck : String) (auth w : VarMap) (env : QEnv) :
    (fetch vars ck auth w env).1 =
      ⟨w, renameCount (dictMerge vars w) ck,
        env.send auth (renameCount (dictMerge vars w) ck)⟩ := by
  unfold fetch
  dsimp only
  split <;> rfl

theorem fetch_snd_err (vars : VarMap) (ck : String) (auth w : VarMap)
    (env : QEnv) (h : (fetch vars ck auth w env).1.resp.status_code ≠ 200) :
    (fetch vars ck auth w env).2 =
      .error (.requestError (fetch vars ck auth w env).1.resp.status_code
        (fetch vars ck auth w env).1.resp.text) := by
  rw [fetch_fst] at h ⊢
  unfold fetch
  rw [if_pos h]

theorem fetch_snd_ok (vars : VarMap) (ck : String) (auth w : VarMap)
    (env : QEnv) (h : (fetch vars ck auth w env).1.resp.status_code = 200) :
    (fetch vars ck auth w env).2 = .ok (fetch vars ck auth w env).1.resp := by
  have h2 : (env.send auth (renameCount (dictMerge vars w) ck)).status_code = 200 := by
    rw [fetch_fst] at h
    exact h
  rw [fetch_fst]
  unfold fetch
  dsimp only
  rw [if_neg (by simp [h2])]

/-! Arithmetic facts about the page plan. -/

theorem pyCeil_spec (r m : Int) (hr : 1 ≤ r) (hm : 1 ≤ m) :
    1 ≤ pyCeil r m ∧ (pyCeil r m - 1) * m < r ∧ r ≤ pyCeil r m * m := by
  unfold pyCeil
  have h0 : (0 : Int) < m := hm
  have hdm : m * ((-r).ediv m) + (-r).emod m = -r := Int.ediv_add_emod (-r) m
  have hnn : 0 ≤ (-r).emod m := Int.emod_nonneg _ (by omega)
  have hlt : (-r).emod m < m := Int.emod_lt_of_pos _ h0
  set q := (-r).ediv m with hq
  have ht : m * q ≤ -1 := by linarith
  have hqneg : q < 0 := by
    by_contra hc
    push_neg at hc
    have : 0 ≤ m * q := mul_nonneg (by omega) hc
    omega
  refine ⟨by omega, by nlinarith, by nlinarith⟩

theorem pageSize_le (nPage rem m : Int) (i : Nat)
    (hrem : rem < m) : pageSize nPage rem m i ≤ m := by
  unfold pageSize
  split
  · omega
  · split <;> omega

/-! Structural lemmas about one loop iteration. -/

theorem accumulate_calls (s : LoopSt) (i : Nat) (d : DataFrame) :
    (accumulate s i d).calls = s.calls := by
  unfold accumulate
  split <;> rfl

theorem accumulate_pages (s : LoopSt) (i : Nat) (d : DataFrame) :
    (accumulate s i d).pages = s.pages := by
  unfold accumulate
  split <;> rfl

theorem accumulate_last_id (s : LoopSt) (i : Nat) (d : DataFrame) :
    (accumulate s i d).last_id = s.last_id := by
  unfold accumulate
  split <;> rfl

theorem accumulate_acc (s : LoopSt) (i : Nat) (d : DataFrame) :
    (accumulate s i d).acc =
      (if i = 0 then some d else some (dfConcat (s.acc.getD ⟨[], []⟩) d)) := by
  unfold accumulate
  split <;> simp_all

/-- Everything a single loop iteration guarantees: the one appended call, its
shape, and on success the page, accumulator and cursor-state updates. -/
theorem pageStep_shape (cfg : PagConfig) (env : QEnv) (vars auth : VarMap)
    (nPage remain : Int) (i : Nat) (st st1 : LoopSt) (r : Option QError)
    (h : pageStep cfg env vars auth nPage remain i st = (st1, r)) :
    ∃ call : PageCall,
      call = (fetch vars cfg.count_key auth
          (stepKwargs cfg nPage remain i st.last_id st.whr) env).1 ∧
      st1.calls = st.calls ++ [call] ∧
      call.kwargs = stepKwargs cfg nPage remain i st.last_id st.whr ∧
      call.ctx = renameCount (dictMerge vars call.kwargs) cfg.count_key ∧
      call.resp = env.send auth call.ctx ∧
      (r = none →
        call.resp.status_code = 200 ∧
        st1.pages = st.pages ++ [env.from_response call.resp] ∧
        st1.acc = (if i = 0 then some (env.from_response call.resp)
          else some (dfConcat (st.acc.getD ⟨[], []⟩)
            (env.from_response call.resp))) ∧
        (cfg.pag_type = "cursor" →
          ∃ n, lastLabelInt (env.from_response call.resp) cfg.cursor_id = .ok n ∧
            st1.last_id = n - 1) ∧
        (cfg.pag_type ≠ "cursor" → st1.last_id = st.last_id)) ∧
      (∀ e, r = some e → call.resp.status_code ≠ 200 →
        e = .requestError call.resp.status_code call.resp.text) := by
  set w := stepKwargs cfg nPage remain i st.last_id st.whr with hw
  have hfst := fetch_fst vars cfg.count_key auth w env
  refine ⟨(fetch vars cfg.count_key auth w env).1, rfl, ?_⟩
  unfold pageStep at h
  dsimp only at h
  rw [← hw] at h
  cases hf2 : (fetch vars cfg.count_key auth w env).2 with
  | error e0 =>
    rw [hf2] at h
    dsimp only at h
    rw [Prod.mk.injEq] at h
    obtain ⟨h1, h2⟩ := h
    subst h1
    subst h2
    have hs : (fetch vars cfg.count_key auth w env).1.resp.status_code ≠ 200 := by
      intro hs200
      have := fetch_snd_ok vars cfg.count_key auth w env hs200
      rw [hf2] at this
      exact Except.noConfusion this
    refine ⟨rfl, by rw [hfst], by rw [hfst], by rw [hfst], ?_, ?_⟩
    · intro hc
      exact Option.noConfusion hc
    · intro e he _
      have herr := fetch_snd_err vars cfg.count_key auth w env hs
      rw [hf2] at herr
      injection herr with herr2
      injection he with he2
      rw [← he2, herr2]
  | ok resp0 =>
    have hs : (fetch vars cfg.count_key auth w env).1.resp.status_code = 200 := by
      by_contra hs
      have := fetch_snd_err vars cfg.count_key auth w env hs
      rw [hf2] at this
      exact Except.noConfusion this
    have hresp : resp0 = (fetch vars cfg.count_key auth w env).1.resp := by
      have h4 := fetch_snd_ok vars cfg.count_key auth w env hs
      rw [hf2] at h4
      simp only [Except.ok.injEq] at h4
      exact h4
    subst hresp
    rw [hf2] at h
    dsimp only at h
    by_cases hcur : cfg.pag_type = "cursor"
    · rw [if_pos hcur] at h
      cases hext : lastLabelInt
          (env.from_response (fetch vars cfg.count_key auth w env).1.resp)
          cfg.cursor_id with
      | error e1 =>
        rw [hext] at h
        dsimp only at h
        rw [Prod.mk.injEq] at h
        obtain ⟨h1, h2⟩ := h
        subst h1
        subst h2
        refine ⟨rfl, by rw [hfst], by rw [hfst], by rw [hfst], ?_, ?_⟩
        · intro hc
          exact Option.noConfusion hc
        · intro e he hne
          exact absurd hs hne
      | ok n =>
        rw [hext] at h
        dsimp only at h
        rw [Prod.mk.injEq] at h
        obtain ⟨h1, h2⟩ := h
        subst h1
        subst h2
        refine ⟨by rw [accumulate_calls], by rw [hfst], by rw [hfst],
          by rw [hfst], ?_, ?_⟩
        · intro _
          refine ⟨hs, by rw [accumulate_pages], ?_, ?_, ?_⟩
          · rw [accumulate_acc]
          · intro _
            exact ⟨n, rfl, by rw [accumulate_last_id]⟩
          · intro hnc
            exact absurd hcur hnc
        · intro e he _
          exact Option.noConfusion he
    · rw [if_neg hcur] at h
      rw [Prod.mk.injEq] at h
      obtain ⟨h1, h2⟩ := h
      subst h1
      subst h2
      refine ⟨by rw [accumulate_calls], by rw [hfst], by rw [hfst],
        by rw [hfst], ?_, ?_⟩
      · intro _
        refine ⟨hs, by rw [accumulate_pages], ?_, ?_, ?_⟩
        · rw [accumulate_acc]
        · intro hc
          exact absurd hc hcur
        · intro _
          rw [accumulate_last_id]
      · intro e he _
        exact Option.noConfusion he

/-! Generic reasoning principles for the page loop. -/

/-- A success-path invariant indexed by the loop counter is preserved by the
whole loop. -/
theorem runFrom_inv (cfg : PagConfig) (env : QEnv) (vars auth : VarMap)
    (nPage remain : Int) (Inv : Nat → LoopSt → Prop)
    (hstep : ∀ i st st1, Inv i st →
      pageStep cfg env vars auth nPage remain i st = (st1, none) →
      Inv (i + 1) st1) :
    ∀ k i st st1, runFrom cfg env vars auth nPage remain i k st = (st1, none) →
      Inv i st → Inv (i + k) st1 := by
  intro k
  induction k with
  | zero =>
    intro i st st1 h hI
    simp only [runFrom, Prod.mk.injEq] at h
    obtain ⟨h1, -⟩ := h
    subst h1
    simpa using hI
  | succ n ih =>
    intro i st st1 h hI
    unfold runFrom at h
    rcases hps : pageStep cfg env vars auth nPage remain i st with ⟨stm, rm⟩
    rw [hps] at h
    cases rm with
    | none =>
      dsimp only at h
      have hI1 := hstep i st stm hI hps
      have hfin := ih (i + 1) stm st1 h hI1
      rw [show i + (n + 1) = (i + 1) + n by omega]
      exact hfin
    | some e =>
      dsimp only at h
      rw [Prod.mk.injEq] at h
      exact absurd h.2 (by simp)

/-- A property of single calls that holds for the call of every iteration,
from any state, holds for all recorded calls, also when the loop stops
early on an error. -/
theorem runFrom_all (cfg : PagConfig) (env : QEnv) (vars auth : VarMap)
    (nPage remain : Int) (P : PageCall → Prop)
    (hP : ∀ (i : Nat) (st : LoopSt),
      P (fetch vars cfg.count_key auth
          (stepKwargs cfg nPage remain i st.last_id st.whr) env).1) :
    ∀ k i st st1 r, runFrom cfg env vars auth nPage remain i k st = (st1, r) →
      (∀ c ∈ st.calls, P c) → ∀ c ∈ st1.calls, P c := by
  intro k
  induction k with
  | zero =>
    intro i st st1 r h hpre
    simp only [runFrom, Prod.mk.injEq] at h
    obtain ⟨h1, -⟩ := h
    subst h1
    exact hpre
  | succ n ih =>
    intro i st st1 r h hpre
    unfold runFrom at h
    rcases hps : pageStep cfg env vars auth nPage remain i st with ⟨stm, rm⟩
    rw [hps] at h
    obtain ⟨call, hcall, hcalls, -, -, -, -, -⟩ :=
      pageStep_shape cfg env vars auth nPage remain i st stm rm hps
    have hpre1 : ∀ c ∈ stm.calls, P c := by
      intro c hc
      rw [hcalls] at hc
      rcases List.mem_append.1 hc with hold | hnew
      · exact hpre c hold
      · rw [List.mem_singleton.1 hnew, hcall]
        exact hP i st
    cases rm with
    | none =>
      dsimp only at h
      exact ih (i + 1) stm st1 r h hpre1
    | some e =>
      dsimp only at h
      rw [Prod.mk.injEq] at h
      obtain ⟨h1, -⟩ := h
      subst h1
      exact hpre1

/-- Status bookkeeping across the loop: all calls before the last returned
status 200; if the loop raised and the last recorded response has a
non-success status, the error is exactly the request error for that
response. -/
theorem runFrom_c5 (cfg : PagConfig) (env : QEnv) (vars auth : VarMap)
    (nPage remain : Int) :
    ∀ k i st st1 r, runFrom cfg env vars auth nPage remain i k st = (st1, r) →
      (∀ c ∈ st.calls, c.resp.status_code = 200) →
      ((r = none → ∀ c ∈ st1.calls, c.resp.status_code = 200) ∧
       (∀ e, r = some e →
         ((∀ c ∈ st1.calls.dropLast, c.resp.status_code = 200) ∧
          (∀ c, st1.calls.getLast? = some c → c.resp.status_code ≠ 200 →
            e = .requestError c.resp.status_code c.resp.text)))) := by
  intro k
  induction k with
  | zero =>
    intro i st st1 r h hpre
    simp only [runFrom, Prod.mk.injEq] at h
    obtain ⟨h1, h2⟩ := h
    subst h1
    constructor
    · intro _
      exact hpre
    · intro e he
      rw [← h2] at he
      exact Option.noConfusion he
  | succ n ih =>
    intro i st st1 r h hpre
    unfold runFrom at h
    rcases hps : pageStep cfg env vars auth nPage remain i st with ⟨stm, rm⟩
    rw [hps] at h
    obtain ⟨call, -, hcalls, -, -, -, hok, herr⟩ :=
      pageStep_shape cfg env vars auth nPage remain i st stm rm hps
    cases rm with
    | none =>
      dsimp only at h
      have hpre1 : ∀ c ∈ stm.calls, c.resp.status_code = 200 := by
        intro c hc
        rw [hcalls] at hc
        rcases List.mem_append.1 hc with hold | hnew
        · exact hpre c hold
        · rw [List.mem_singleton.1 hnew]
          exact (hok rfl).1
      exact ih (i + 1) stm st1 r h hpre1
    | some e =>
      dsimp only at h
      rw [Prod.mk.injEq] at h
      obtain ⟨h1, h2⟩ := h
      subst h1
      constructor
      · intro hc
        rw [← h2] at hc
        exact Option.noConfusion hc
      · intro e1 he1
        rw [← h2] at he1
        injection he1 with he2
        subst he2
        constructor
        · intro c hc
          rw [hcalls, List.dropLast_concat] at hc
          exact hpre c hc
        · intro c hlast hne
          rw [hcalls, List.getLast?_concat] at hlast
          injection hlast with h3
          subst h3
          exact herr _ rfl hne

/-! Characterizations of the two branches of `query`. -/

/-- The loop execution of the paged branch of `query`, as one definition. -/
def pagedRun (conn : Connector) (cfg : PagConfig) (ap : Option VarMap)
    (whr : VarMap) (env : QEnv) (r : Int) : LoopSt × Option QError :=
  runFrom cfg env conn.vars (effAuth conn.auth_params ap)
    (pyCeil r cfg.max_count) (r.emod cfg.max_count)
    0 (pyCeil r cfg.max_count).toNat ⟨whr, 0, none, [], []⟩

theorem query_conn_eq (conn : Connector) (cfg : PagConfig) (ap : Option VarMap)
    (whr : VarMap) (env : QEnv) : (query conn cfg ap whr env).conn = conn := rfl

theorem query_calls_eq (conn : Connector) (cfg : PagConfig) (ap : Option VarMap)
    (whr : VarMap) (env : QEnv) :
    (query conn cfg ap whr env).calls = (queryCore conn cfg ap whr env).1 := rfl

theorem query_pages_eq (conn : Connector) (cfg : PagConfig) (ap : Option VarMap)
    (whr : VarMap) (env : QEnv) :
    (query conn cfg ap whr env).pages = (queryCore conn cfg ap whr env).2.1 := rfl

theorem query_res_eq (conn : Connector) (cfg : PagConfig) (ap : Option VarMap)
    (whr : VarMap) (env : QEnv) :
    (query conn cfg ap whr env).res = (queryCore conn cfg ap whr env).2.2 := rfl

theorem queryCore_none (conn : Connector) (cfg : PagConfig) (ap : Option VarMap)
    (whr : VarMap) (env : QEnv) (h : vget whr "returned_number" = none) :
    queryCore conn cfg ap whr env =
      (match (fetch conn.vars cfg.count_key (effAuth conn.auth_params ap)
          (vset whr "returned_number" (.vInt cfg.max_count)) env).2 with
       | .error e =>
          ([(fetch conn.vars cfg.count_key (effAuth conn.auth_params ap)
              (vset whr "returned_number" (.vInt cfg.max_count)) env).1], [],
            .error e)
       | .ok resp =>
          ([(fetch conn.vars cfg.count_key (effAuth conn.auth_params ap)
              (vset whr "returned_number" (.vInt cfg.max_count)) env).1],
            [env.from_response resp], .ok (env.from_response resp))) := by
  unfold queryCore
  rw [h]

theorem queryCore_paged (conn : Connector) (cfg : PagConfig)
    (ap : Option VarMap) (whr : VarMap) (env : QEnv) (r : Int)
    (h : vget whr "returned_number" = some (.vInt r)) :
    queryCore conn cfg ap whr env =
      (match (pagedRun conn cfg ap whr env r).2 with
       | some e => ((pagedRun conn cfg ap whr env r).1.calls,
          (pagedRun conn cfg ap whr env r).1.pages, .error e)
       | none =>
          match (pagedRun conn cfg ap whr env r).1.acc with
          | none => ((pagedRun conn cfg ap whr env r).1.calls,
              (pagedRun conn cfg ap whr env r).1.pages, .error .attributeError)
          | some df => ((pagedRun conn cfg ap whr env r).1.calls,
              (pagedRun conn cfg ap whr env r).1.pages,
              .ok (resetIndex df))) := by
  unfold queryCore pagedRun
  rw [h]

/-- A successful paged query: the loop finished without error, the
accumulator holds a table, and the result is its reindexing. -/
theorem query_paged_ok (conn : Connector) (cfg : PagConfig)
    (ap : Option VarMap) (whr : VarMap) (env : QEnv) (r : Int) (df : DataFrame)
    (h : vget whr "returned_number" = some (.vInt r))
    (hres : (query conn cfg ap whr env).res = .ok df) :
    (pagedRun conn cfg ap whr env r).2 = none ∧
    (query conn cfg ap whr env).calls = (pagedRun conn cfg ap whr env r).1.calls ∧
    (query conn cfg ap whr env).pages = (pagedRun conn cfg ap whr env r).1.pages ∧
    ∃ J, (pagedRun conn cfg ap whr env r).1.acc = some J ∧ df = resetIndex J := by
  rw [query_res_eq, queryCore_paged conn cfg ap whr env r h] at hres
  rw [query_calls_eq, query_pages_eq, queryCore_paged conn cfg ap whr env r h]
  cases h2 : (pagedRun conn cfg ap whr env r).2 with
  | some e =>
    rw [h2] at hres
    exact Except.noConfusion hres
  | none =>
    rw [h2] at hres
    cases hacc : (pagedRun conn cfg ap whr env r).1.acc with
    | none =>
      rw [hacc] at hres
      exact Except.noConfusion hres
    | some J =>
      rw [hacc] at hres
      dsimp only at hres
      injection hres with h3
      exact ⟨rfl, rfl, rfl, J, rfl, h3.symm⟩

/-! The page plan of the paged branch. -/

/-- On success the loop of the paged branch issues exactly
`ceil(r / max_count)` page requests. -/
theorem paged_length (conn : Connector) (cfg : PagConfig) (ap : Option VarMap)
    (whr : VarMap) (env : QEnv) (r : Int)
    (hrun : (pagedRun conn cfg ap whr env r).2 = none) :
    (pagedRun conn cfg ap whr env r).1.calls.length =
      (pyCeil r cfg.max_count).toNat := by
  have heq : pagedRun conn cfg ap whr env r =
      ((pagedRun conn cfg ap whr env r).1, none) := by
    rw [← hrun]
  unfold pagedRun at heq
  have key := runFrom_inv cfg env conn.vars (effAuth conn.auth_params ap)
    (pyCeil r cfg.max_count) (r.emod cfg.max_count)
    (fun i st => st.calls.length = i)
    (by
      intro i st st1 hI hps
      obtain ⟨call, -, hcalls, -, -, -, -, -⟩ :=
        pageStep_shape cfg env conn.vars (effAuth conn.auth_params ap)
          (pyCeil r cfg.max_count) (r.emod cfg.max_count) i st st1 none hps
      rw [hcalls, List.length_append, hI]
      rfl)
    (pyCeil r cfg.max_count).toNat 0 ⟨whr, 0, none, [], []⟩
    (pagedRun conn cfg ap whr env r).1 heq rfl
  simpa using key

/-- On success, the request sizes of the paged branch follow `pageSize`. -/
theorem paged_sizes (conn : Connector) (cfg : PagConfig) (ap : Option VarMap)
    (whr : VarMap) (env : QEnv) (r : Int)
    (hck : cfg.cursor_key ≠ "returned_number")
    (hak : cfg.anchor_key ≠ "returned_number")
    (hrun : (pagedRun conn cfg ap whr env r).2 = none) :
    ∀ t c, (pagedRun conn cfg ap whr env r).1.calls[t]? = some c →
      vget c.kwargs "returned_number" =
        some (.vInt (pageSize (pyCeil r cfg.max_count) (r.emod cfg.max_count)
          cfg.max_count t)) := by
  have heq : pagedRun conn cfg ap whr env r =
      ((pagedRun conn cfg ap whr env r).1, none) := by
    rw [← hrun]
  unfold pagedRun at heq
  have key := runFrom_inv cfg env conn.vars (effAuth conn.auth_params ap)
    (pyCeil r cfg.max_count) (r.emod cfg.max_count)
    (fun i st => st.calls.length = i ∧
      ∀ t c, st.calls[t]? = some c →
        vget c.kwargs "returned_number" =
          some (.vInt (pageSize (pyCeil r cfg.max_count) (r.emod cfg.max_count)
            cfg.max_count t)))
    (by
      intro i st st1 hI hps
      obtain ⟨call, -, hcalls, hkw, -, -, -, -⟩ :=
        pageStep_shape cfg env conn.vars (effAuth conn.auth_params ap)
          (pyCeil r cfg.max_count) (r.emod cfg.max_count) i st st1 none hps
      refine ⟨by rw [hcalls, List.length_append, hI.1]; rfl, ?_⟩
      intro t c hc
      rw [hcalls] at hc
      by_cases ht : t < st.calls.length
      · rw [List.getElem?_append_left ht] at hc
        exact hI.2 t c hc
      · have htlt : t < st.calls.length + 1 := by
          by_contra hge
          push_neg at hge
          rw [List.getElem?_eq_none (by simpa using hge)] at hc
          exact Option.noConfusion hc
        have ht2 : t = st.calls.length := by omega
        subst ht2
        rw [List.getElem?_concat_length] at hc
        injection hc with hc2
        subst hc2
        rw [hkw, hI.1]
        exact stepKwargs_count cfg (pyCeil r cfg.max_count)
          (r.emod cfg.max_count) i st.last_id st.whr hck hak)
    (pyCeil r cfg.max_count).toNat 0 ⟨whr, 0, none, [], []⟩
    (pagedRun conn cfg ap whr env r).1 heq
    ⟨rfl, by
      intro t c hc
      rw [show (⟨whr, 0, none, [], []⟩ : LoopSt).calls = [] from rfl,
        List.getElem?_nil] at hc
      exact Option.noConfusion hc⟩
  exact key.2

/-! Concrete fixtures used by witnesses and counterexamples. -/

/-- A connector with no default variables and no default auth parameters. -/
def cexConn : Connector := ⟨[], []⟩

/-- A transport that always answers 200 and a decoder that always yields one
row with cursor column `"id"` equal to 10, at index label 0. -/
def cexEnvOk : QEnv :=
  ⟨fun _ _ => ⟨200, ""⟩, fun _ => ⟨[0], [[("id", Val.vInt 10)]]⟩⟩

/-- A configuration with the `none` strategy and `max_count = 1`. -/
def cexCfgNone : PagConfig := ⟨"none", 1, "count", "cur", "anc", "id"⟩

/-- A configuration with the offset strategy (`"limit"`) and `max_count = 2`. -/
def cexCfgLim : PagConfig := ⟨"limit", 2, "count", "cur", "anc", "id"⟩

/-- A configuration with the cursor strategy and `max_count = 1`. -/
def cexCfgCur : PagConfig := ⟨"cursor", 1, "count", "cur", "anc", "id"⟩

/-- C3: with a requested total `r ≥ 1` and `max_count ≥ 1`, a successful
query issues exactly `ceil(r / max_count)` page requests (stated both via
the source ceiling formula `pyCeil` and via the defining inequalities of the
ceiling); every page before the last requests exactly `max_count` rows, and
the last page requests `r mod max_count` rows if that remainder is nonzero,
else `max_count` rows.  The cursor and anchor parameter names are assumed
distinct from the reserved name `"returned_number"`. -/
theorem claim_C3 (conn : Connector) (cfg : PagConfig) (ap : Option VarMap)
    (whr : VarMap) (env : QEnv) (r : Int) (df : DataFrame)
    (hck : cfg.cursor_key ≠ "returned_number")
    (hak : cfg.anchor_key ≠ "returned_number")
    (hr : 1 ≤ r) (hm : 1 ≤ cfg.max_count)
    (hwhr : vget whr "returned_number" = some (.vInt r))
    (hres : (query conn cfg ap whr env).res = .ok df) :
    ((query conn cfg ap whr env).calls.length : Int) = pyCeil r cfg.max_count ∧
    (((query conn cfg ap whr env).calls.length : Int) - 1) * cfg.max_count < r ∧
    r ≤ ((query conn cfg ap whr env).calls.length : Int) * cfg.max_count ∧
    ∀ t c, (query conn cfg ap whr env).calls[t]? = some c →
      vget c.kwargs "returned_number" =
        some (.vInt (if t + 1 < (query conn cfg ap whr env).calls.length
          then cfg.max_count
          else if r.emod cfg.max_count ≠ 0 then r.emod cfg.max_count
          else cfg.max_count)) := by
  obtain ⟨hrun, hcalls, -, -⟩ :=
    query_paged_ok conn cfg ap whr env r df hwhr hres
  obtain ⟨hP1, hP2, hP3⟩ := pyCeil_spec r cfg.max_count hr hm
  have hlen := paged_length conn cfg ap whr env r hrun
  have hsz := paged_sizes conn cfg ap whr env r hck hak hrun
  rw [hcalls]
  have hlenInt : ((pagedRun conn cfg ap whr env r).1.calls.length : Int) =
      pyCeil r cfg.max_count := by
    rw [hlen]
    exact Int.toNat_of_nonneg (by omega)
  refine ⟨hlenInt, by rw [hlenInt]; exact hP2, by rw [hlenInt]; exact hP3, ?_⟩
  intro t c hc
  rw [hsz t c hc]
  have hiff : t + 1 < (pagedRun conn cfg ap whr env r).1.calls.length ↔
      (t : Int) < pyCeil r cfg.max_count - 1 := by
    rw [hlen]
    omega
  unfold pageSize
  by_cases hN : (t : Int) < pyCeil r cfg.max_count - 1
  · rw [if_pos hN, if_pos (hiff.2 hN)]
  · rw [if_neg hN, if_neg (fun hh => hN (hiff.1 hh))]

/-- Witness for C3: the end-to-end offset scenario with `max_count = 2` and
`requestedCount = 5` issues `ceil(5 / 2) = 3` pages. -/
theorem claim_C3_witness :
    (1 : Int) ≤ 5 ∧ (1 : Int) ≤ cexCfgLim.max_count ∧
    ((query cexConn cexCfgLim none [("returned_number", Val.vInt 5)]
        cexEnvOk).calls.length : Int) = pyCeil 5 cexCfgLim.max_count := by
  refine ⟨by decide, by decide, ?_⟩
  exact (claim_C3 cexConn cexCfgLim none [("returned_number", Val.vInt 5)]
    cexEnvOk 5
    ⟨[0, 1, 2], [[("id", Val.vInt 10)], [("id", Val.vInt 10)],
      [("id", Val.vInt 10)]]⟩
    (by decide) (by decide) (by decide) (by decide) rfl rfl).1

/-- Counterexample for C2 as stated: with the `none` strategy,
`max_count = 1` and a `"returned_number"` override of 2, the code issues two
page requests, not one. -/
theorem claim_C2_counterexample :
    cexCfgNone.pag_type = "none" ∧
    (query cexConn cexCfgNone none [("returned_number", Val.vInt 2)]
      cexEnvOk).calls.length = 2 ∧ (2 : Nat) ≠ 1 := by
  exact ⟨rfl, rfl, by decide⟩

/-- C2 (amended): with the `none` strategy, `query` issues exactly one page
request when the caller supplies no `"returned_number"` override; with an
override `r ≥ 1` (and `max_count ≥ 1`), a successful query issues
`ceil(r / max_count)` page requests, the same page plan as the other
strategies. -/
theorem claim_C2_amended (conn : Connector) (cfg : PagConfig)
    (ap : Option VarMap) (env : QEnv) (_hnone : cfg.pag_type = "none") :
    (∀ whr, vget whr "returned_number" = none →
      (query conn cfg ap whr env).calls.length = 1) ∧
    (∀ whr r df, vget whr "returned_number" = some (.vInt r) → 1 ≤ r →
      1 ≤ cfg.max_count → (query conn cfg ap whr env).res = .ok df →
      ((query conn cfg ap whr env).calls.length : Int) =
        pyCeil r cfg.max_count) := by
  constructor
  · intro whr hw
    rw [query_calls_eq, queryCore_none conn cfg ap whr env hw]
    cases hf2 : (fetch conn.vars cfg.count_key (effAuth conn.auth_params ap)
        (vset whr "returned_number" (.vInt cfg.max_count)) env).2 <;> rfl
  · intro whr r df hw hr hm hres
    obtain ⟨hrun, hcalls, -, -⟩ :=
      query_paged_ok conn cfg ap whr env r df hw hres
    obtain ⟨hP1, -, -⟩ := pyCeil_spec r cfg.max_count hr hm
    rw [hcalls, paged_length conn cfg ap whr env r hrun]
    exact Int.toNat_of_nonneg (by omega)

/-- Witness for the amended C2: no override gives one page; an override of 2
with `max_count = 1` gives `ceil(2 / 1) = 2` pages. -/
theorem claim_C2_witness :
    vget ([] : VarMap) "returned_number" = none ∧
    (query cexConn cexCfgNone none [] cexEnvOk).calls.length = 1 ∧
    ((query cexConn cexCfgNone none [("returned_number", Val.vInt 2)]
        cexEnvOk).calls.length : Int) = pyCeil 2 cexCfgNone.max_count := by
  refine ⟨rfl, ?_, ?_⟩
  · exact (claim_C2_amended cexConn cexCfgNone none cexEnvOk rfl).1 [] rfl
  · exact (claim_C2_amended cexConn cexCfgNone none cexEnvOk rfl).2
      [("returned_number", Val.vInt 2)] 2
      ⟨[0, 1], [[("id", Val.vInt 10)], [("id", Val.vInt 10)]]⟩
      rfl (by decide) (by decide) rfl

/-- C9: with `"returned_number" = 0` (and a positive `max_count`, as Python
needs for the division), the page loop runs zero times: no page request is
issued, no page is decoded, and the final `reset_index` step fails on the
initial empty-list accumulator with an attribute error, which is outside the
error taxonomy of the specification. -/
theorem claim_C9 (conn : Connector) (cfg : PagConfig) (ap : Option VarMap)
    (whr : VarMap) (env : QEnv) (_hm : 1 ≤ cfg.max_count)
    (h0 : vget whr "returned_number" = some (.vInt 0)) :
    (query conn cfg ap whr env).calls = [] ∧
    (query conn cfg ap whr env).pages = [] ∧
    (query conn cfg ap whr env).res = .error .attributeError := by
  have hpr : pagedRun conn cfg ap whr env 0 = (⟨whr, 0, none, [], []⟩, none) := by
    unfold pagedRun
    have hc0 : pyCeil 0 cfg.max_count = 0 := by
      unfold pyCeil
      have h1 : Int.ediv (-(0 : Int)) cfg.max_count = 0 := by
        rw [neg_zero]
        exact Int.zero_ediv cfg.max_count
      rw [h1]
      rfl
    rw [hc0]
    rfl
  rw [query_calls_eq, query_pages_eq, query_res_eq,
    queryCore_paged conn cfg ap whr env 0 h0, hpr]
  exact ⟨rfl, rfl, rfl⟩

/-- Witness for C9. -/
theorem claim_C9_witness :
    (1 : Int) ≤ cexCfgNone.max_count ∧
    vget [("returned_number", Val.vInt 0)] "returned_number" =
      some (Val.vInt 0) ∧
    (query cexConn cexCfgNone none [("returned_number", Val.vInt 0)]
      cexEnvOk).calls = [] ∧
    (query cexConn cexCfgNone none [("returned_number", Val.vInt 0)]
      cexEnvOk).res = .error .attributeError := by
  refine ⟨by decide, rfl, ?_, ?_⟩
  · exact (claim_C9 cexConn cexCfgNone none
      [("returned_number", Val.vInt 0)] cexEnvOk (by decide) rfl).1
  · exact (claim_C9 cexConn cexCfgNone none
      [("returned_number", Val.vInt 0)] cexEnvOk (by decide) rfl).2.2

/-! The branch of `query` that fetches a single page sized `max_count`. -/

theorem queryCore_str (conn : Connector) (cfg : PagConfig) (ap : Option VarMap)
    (whr : VarMap) (env : QEnv) (s : String)
    (h : vget whr "returned_number" = some (.vStr s)) :
    queryCore conn cfg ap whr env = ([], [], .error .typeError) := by
  unfold queryCore
  rw [h]

theorem query_nototal (conn : Connector) (cfg : PagConfig) (ap : Option VarMap)
    (whr : VarMap) (env : QEnv) (h : vget whr "returned_number" = none) :
    (query conn cfg ap whr env).calls =
      [(fetch conn.vars cfg.count_key (effAuth conn.auth_params ap)
        (vset whr "returned_number" (.vInt cfg.max_count)) env).1] := by
  rw [query_calls_eq, queryCore_none conn cfg ap whr env h]
  cases hf2 : (fetch conn.vars cfg.count_key (effAuth conn.auth_params ap)
    (vset whr "returned_number" (.vInt cfg.max_count)) env).2 <;> rfl

theorem query_nototal_ok (conn : Connector) (cfg : PagConfig)
    (ap : Option VarMap) (whr : VarMap) (env : QEnv)
    (h : vget whr "returned_number" = none)
    (hs : (fetch conn.vars cfg.count_key (effAuth conn.auth_params ap)
      (vset whr "returned_number" (.vInt cfg.max_count)) env).1.resp.status_code
        = 200) :
    (query conn cfg ap whr env).pages =
      [env.from_response (fetch conn.vars cfg.count_key
        (effAuth conn.auth_params ap)
        (vset whr "returned_number" (.vInt cfg.max_count)) env).1.resp] ∧
    (query conn cfg ap whr env).res =
      .ok (env.from_response (fetch conn.vars cfg.count_key
        (effAuth conn.auth_params ap)
        (vset whr "returned_number" (.vInt cfg.max_count)) env).1.resp) := by
  rw [query_pages_eq, query_res_eq, queryCore_none conn cfg ap whr env h,
    fetch_snd_ok _ _ _ _ _ hs]
  exact ⟨rfl, rfl⟩

theorem query_nototal_err (conn : Connector) (cfg : PagConfig)
    (ap : Option VarMap) (whr : VarMap) (env : QEnv)
    (h : vget whr "returned_number" = none)
    (hs : (fetch conn.vars cfg.count_key (effAuth conn.auth_params ap)
      (vset whr "returned_number" (.vInt cfg.max_count)) env).1.resp.status_code
        ≠ 200) :
    (query conn cfg ap whr env).pages = [] ∧
    (query conn cfg ap whr env).res =
      .error (.requestError (fetch conn.vars cfg.count_key
          (effAuth conn.auth_params ap)
          (vset whr "returned_number" (.vInt cfg.max_count))
          env).1.resp.status_code
        (fetch conn.vars cfg.count_key (effAuth conn.auth_params ap)
          (vset whr "returned_number" (.vInt cfg.max_count))
          env).1.resp.text) := by
  rw [query_pages_eq, query_res_eq, queryCore_none conn cfg ap whr env h,
    fetch_snd_err _ _ _ _ _ hs]
  exact ⟨rfl, rfl⟩

/-- In the paged branch the recorded calls are those of the loop run, whether
or not the run raised. -/
theorem query_paged_calls (conn : Connector) (cfg : PagConfig)
    (ap : Option VarMap) (whr : VarMap) (env : QEnv) (r : Int)
    (h : vget whr "returned_number" = some (.vInt r)) :
    (query conn cfg ap whr env).calls =
      (pagedRun conn cfg ap whr env r).1.calls := by
  rw [query_calls_eq, queryCore_paged conn cfg ap whr env r h]
  cases (pagedRun conn cfg ap whr env r).2 with
  | some e => rfl
  | none => cases (pagedRun conn cfg ap whr env r).1.acc <;> rfl

/-! The offset (source tag `"limit"`) strategy. -/

theorem paged_anchors (conn : Connector) (cfg : PagConfig) (ap : Option VarMap)
    (whr : VarMap) (env : QEnv) (r : Int) (hlim : cfg.pag_type = "limit")
    (hrun : (pagedRun conn cfg ap whr env r).2 = none) :
    ∀ (t : Nat) (c : PageCall),
      (pagedRun conn cfg ap whr env r).1.calls[t]? = some c →
      vget c.kwargs cfg.anchor_key =
        some (.vInt ((t : Int) * cfg.max_count)) := by
  have heq : pagedRun conn cfg ap whr env r =
      ((pagedRun conn cfg ap whr env r).1, none) := by
    rw [← hrun]
  unfold pagedRun at heq
  have key := runFrom_inv cfg env conn.vars (effAuth conn.auth_params ap)
    (pyCeil r cfg.max_count) (r.emod cfg.max_count)
    (fun i st => st.calls.length = i ∧
      ∀ (t : Nat) (c : PageCall), st.calls[t]? = some c →
        vget c.kwargs cfg.anchor_key =
          some (.vInt ((t : Int) * cfg.max_count)))
    (by
      intro i st st1 hI hps
      obtain ⟨call, -, hcalls, hkw, -, -, -, -⟩ :=
        pageStep_shape cfg env conn.vars (effAuth conn.auth_params ap)
          (pyCeil r cfg.max_count) (r.emod cfg.max_count) i st st1 none hps
      refine ⟨by rw [hcalls, List.length_append, hI.1]; rfl, ?_⟩
      intro t c hc
      rw [hcalls] at hc
      by_cases ht : t < st.calls.length
      · rw [List.getElem?_append_left ht] at hc
        exact hI.2 t c hc
      · have htlt : t < st.calls.length + 1 := by
          by_contra hge
          push_neg at hge
          rw [List.getElem?_eq_none (by simpa using hge)] at hc
          exact Option.noConfusion hc
        have ht2 : t = st.calls.length := by omega
        subst ht2
        rw [List.getElem?_concat_length] at hc
        injection hc with hc2
        subst hc2
        rw [hkw, hI.1]
        exact stepKwargs_anchor cfg (pyCeil r cfg.max_count)
          (r.emod cfg.max_count) i st.last_id st.whr hlim)
    (pyCeil r cfg.max_count).toNat 0 ⟨whr, 0, none, [], []⟩
    (pagedRun conn cfg ap whr env r).1 heq
    ⟨rfl, by
      intro t c hc
      rw [show (⟨whr, 0, none, [], []⟩ : LoopSt).calls = [] from rfl,
        List.getElem?_nil] at hc
      exact Option.noConfusion hc⟩
  exact key.2

/-- C4: for the offset strategy (source tag `"limit"`) with a caller
requested total, every page `i` of a successful query (first and last
included) carries the injected offset parameter `i * max_count`, independent
of the requested size of that page. -/
theorem claim_C4 (conn : Connector) (cfg : PagConfig) (ap : Option VarMap)
    (whr : VarMap) (env : QEnv) (r : Int) (df : DataFrame)
    (hlim : cfg.pag_type = "limit")
    (hwhr : vget whr "returned_number" = some (.vInt r))
    (hres : (query conn cfg ap whr env).res = .ok df) :
    ∀ (t : Nat) (c : PageCall),
      (query conn cfg ap whr env).calls[t]? = some c →
      vget c.kwargs cfg.anchor_key =
        some (.vInt ((t : Int) * cfg.max_count)) := by
  obtain ⟨hrun, hcalls, -, -⟩ :=
    query_paged_ok conn cfg ap whr env r df hwhr hres
  rw [hcalls]
  exact paged_anchors conn cfg ap whr env r hlim hrun

/-- Witness for C4: three pages with `max_count = 2` carry offsets 0, 2, 4. -/
theorem claim_C4_witness :
    cexCfgLim.pag_type = "limit" ∧
    vget [("returned_number", Val.vInt 5)] "returned_number" =
      some (Val.vInt 5) ∧
    (∀ (t : Nat) (c : PageCall),
      (query cexConn cexCfgLim none [("returned_number", Val.vInt 5)]
        cexEnvOk).calls[t]? = some c →
      vget c.kwargs cexCfgLim.anchor_key =
        some (.vInt ((t : Int) * cexCfgLim.max_count))) := by
  refine ⟨rfl, rfl, ?_⟩
  exact claim_C4 cexConn cexCfgLim none [("returned_number", Val.vInt 5)]
    cexEnvOk 5
    ⟨[0, 1, 2], [[("id", Val.vInt 10)], [("id", Val.vInt 10)],
      [("id", Val.vInt 10)]]⟩
    rfl rfl rfl

/-! Shape of every recorded call, in both branches of `query`. -/

theorem query_calls_shape (conn : Connector) (cfg : PagConfig)
    (ap : Option VarMap) (whr : VarMap) (env : QEnv) :
    ∀ c ∈ (query conn cfg ap whr env).calls,
      (vget c.kwargs "returned_number").isSome ∧
      c.ctx = renameCount (dictMerge conn.vars c.kwargs) cfg.count_key ∧
      c.resp = env.send (effAuth conn.auth_params ap) c.ctx := by
  intro c hc
  cases hw : vget whr "returned_number" with
  | none =>
    rw [query_nototal conn cfg ap whr env hw, List.mem_singleton] at hc
    subst hc
    rw [fetch_fst]
    refine ⟨?_, rfl, rfl⟩
    simp [vget_vset_self]
  | some v =>
    cases v with
    | vStr s =>
      rw [query_calls_eq, queryCore_str conn cfg ap whr env s hw] at hc
      exact absurd hc (List.not_mem_nil c)
    | vInt r =>
      rw [query_paged_calls conn cfg ap whr env r hw] at hc
      refine runFrom_all cfg env conn.vars (effAuth conn.auth_params ap)
        (pyCeil r cfg.max_count) (r.emod cfg.max_count)
        (fun c => (vget c.kwargs "returned_number").isSome ∧
          c.ctx = renameCount (dictMerge conn.vars c.kwargs) cfg.count_key ∧
          c.resp = env.send (effAuth conn.auth_params ap) c.ctx)
        ?_ (pyCeil r cfg.max_count).toNat 0 ⟨whr, 0, none, [], []⟩
        (pagedRun conn cfg ap whr env r).1 (pagedRun conn cfg ap whr env r).2
        rfl (by intro c hc0; exact absurd hc0 (List.not_mem_nil c)) c hc
      intro i st
      rw [fetch_fst]
      exact ⟨stepKwargs_count_isSome cfg (pyCeil r cfg.max_count)
        (r.emod cfg.max_count) i st.last_id st.whr, rfl, rfl⟩

/-- C7: every issued page request has the reserved key
`"returned_number"` present in its call parameters; the context every
template field group is rendered against is exactly the merged variables
with that key removed and its value re-bound under the configured count
key, so rendering sees the value under the configured name and (whenever
the configured name is not itself the reserved name) never sees
`"returned_number"`. -/
theorem claim_C7 (conn : Connector) (cfg : PagConfig) (ap : Option VarMap)
    (whr : VarMap) (env : QEnv) :
    ∀ c ∈ (query conn cfg ap whr env).calls,
      ∃ v, vget c.kwargs "returned_number" = some v ∧
        c.ctx = renameCount (dictMerge conn.vars c.kwargs) cfg.count_key ∧
        vget c.ctx cfg.count_key = some v ∧
        (cfg.count_key ≠ "returned_number" →
          vget c.ctx "returned_number" = none) := by
  intro c hc
  obtain ⟨hsome, hctx, -⟩ := query_calls_shape conn cfg ap whr env c hc
  obtain ⟨v, hv⟩ := Option.isSome_iff_exists.1 hsome
  have hmerged : vget (dictMerge conn.vars c.kwargs) "returned_number" =
      some v := by
    rw [vget_dictMerge, hv]
    rfl
  refine ⟨v, hv, hctx, ?_, ?_⟩
  · rw [hctx]
    exact renameCount_count _ _ _ hmerged
  · intro hne
    rw [hctx]
    exact renameCount_gone _ _ _ hmerged hne

/-- The first recorded call of the query used by the C7 witness. -/
def c7wcall : PageCall :=
  (query cexConn cexCfgNone none [] cexEnvOk).calls.getD 0 ⟨[], [], ⟨0, ""⟩⟩

/-- Witness for C7, at the single call of a no-total query. -/
theorem claim_C7_witness :
    ∃ v, vget c7wcall.kwargs "returned_number" = some v ∧
      c7wcall.ctx =
        renameCount (dictMerge cexConn.vars c7wcall.kwargs)
          cexCfgNone.count_key ∧
      vget c7wcall.ctx cexCfgNone.count_key = some v ∧
      (cexCfgNone.count_key ≠ "returned_number" →
        vget c7wcall.ctx "returned_number" = none) :=
  claim_C7 cexConn cexCfgNone none [] cexEnvOk c7wcall (by decide)

/-- C8: every page request issued by `query`, in both planning branches,
carries a requested row count bounded by the configured `max_count` — both
in the call parameters (key `"returned_number"`) and in the rendered
variable context (under the configured count key).  Assumes `max_count ≥ 1`
and that the cursor and anchor parameter names are distinct from the
reserved name. -/
theorem claim_C8 (conn : Connector) (cfg : PagConfig) (ap : Option VarMap)
    (whr : VarMap) (env : QEnv) (hm : 1 ≤ cfg.max_count)
    (hck : cfg.cursor_key ≠ "returned_number")
    (hak : cfg.anchor_key ≠ "returned_number") :
    ∀ c ∈ (query conn cfg ap whr env).calls,
      ∃ s, vget c.kwargs "returned_number" = some (.vInt s) ∧
        vget c.ctx cfg.count_key = some (.vInt s) ∧ s ≤ cfg.max_count := by
  intro c hc
  cases hw : vget whr "returned_number" with
  | none =>
    rw [query_nototal conn cfg ap whr env hw, List.mem_singleton] at hc
    subst hc
    rw [fetch_fst]
    refine ⟨cfg.max_count, ?_, ?_, le_refl _⟩
    · exact vget_vset_self _ _ _
    · apply renameCount_count
      rw [vget_dictMerge, vget_vset_self]
      rfl
  | some v =>
    cases v with
    | vStr s =>
      rw [query_calls_eq, queryCore_str conn cfg ap whr env s hw] at hc
      exact absurd hc (List.not_mem_nil c)
    | vInt r =>
      rw [query_paged_calls conn cfg ap whr env r hw] at hc
      refine runFrom_all cfg env conn.vars (effAuth conn.auth_params ap)
        (pyCeil r cfg.max_count) (r.emod cfg.max_count)
        (fun c => ∃ s, vget c.kwargs "returned_number" = some (.vInt s) ∧
          vget c.ctx cfg.count_key = some (.vInt s) ∧ s ≤ cfg.max_count)
        ?_ (pyCeil r cfg.max_count).toNat 0 ⟨whr, 0, none, [], []⟩
        (pagedRun conn cfg ap whr env r).1 (pagedRun conn cfg ap whr env r).2
        rfl (by intro c hc0; exact absurd hc0 (List.not_mem_nil c)) c hc
      intro i st
      rw [fetch_fst]
      refine ⟨pageSize (pyCeil r cfg.max_count) (r.emod cfg.max_count)
        cfg.max_count i, ?_, ?_, ?_⟩
      · exact stepKwargs_count cfg (pyCeil r cfg.max_count)
          (r.emod cfg.max_count) i st.last_id st.whr hck hak
      · apply renameCount_count
        rw [vget_dictMerge, stepKwargs_count cfg (pyCeil r cfg.max_count)
          (r.emod cfg.max_count) i st.last_id st.whr hck hak]
        rfl
      · exact pageSize_le _ _ _ _ (Int.emod_lt_of_pos r (by omega))

/-- The first recorded call of the paged query used by the C8 witness. -/
def c8wcall : PageCall :=
  (query cexConn cexCfgLim none [("returned_number", Val.vInt 5)]
    cexEnvOk).calls.getD 0 ⟨[], [], ⟨0, ""⟩⟩

/-- Witness for C8, at the first call of a three-page offset query. -/
theorem claim_C8_witness :
    (1 : Int) ≤ cexCfgLim.max_count ∧
    cexCfgLim.cursor_key ≠ "returned_number" ∧
    cexCfgLim.anchor_key ≠ "returned_number" ∧
    ∃ s, vget c8wcall.kwargs "returned_number" = some (Val.vInt s) ∧
      vget c8wcall.ctx cexCfgLim.count_key = some (Val.vInt s) ∧
      s ≤ cexCfgLim.max_count := by
  refine ⟨by decide, by decide, by decide, ?_⟩
  exact claim_C8 cexConn cexCfgLim none [("returned_number", Val.vInt 5)]
    cexEnvOk (by decide) (by decide) (by decide) c8wcall (by decide)

/-- C10: the connector state is unchanged by `query` — the returned
connector equals the input connector (there is no assignment to the stored
default variables or default auth parameters anywhere in `query` or
`_fetch`) — and every page request renders from a fresh merged copy of the
stored variables and the per-call parameters, never mutating the stored
variables themselves. -/
theorem claim_C10 (conn : Connector) (cfg : PagConfig) (ap : Option VarMap)
    (whr : VarMap) (env : QEnv) :
    (query conn cfg ap whr env).conn = conn ∧
    (query conn cfg ap whr env).calls.map (fun c => c.ctx) =
      (query conn cfg ap whr env).calls.map
        (fun c => renameCount (dictMerge conn.vars c.kwargs) cfg.count_key) := by
  refine ⟨rfl, List.map_congr_left ?_⟩
  intro c hc
  exact (query_calls_shape conn cfg ap whr env c hc).2.1

theorem query_paged_err (conn : Connector) (cfg : PagConfig)
    (ap : Option VarMap) (whr : VarMap) (env : QEnv) (r : Int) (e : QError)
    (h : vget whr "returned_number" = some (.vInt r))
    (h2 : (pagedRun conn cfg ap whr env r).2 = some e) :
    (query conn cfg ap whr env).res = .error e := by
  rw [query_res_eq, queryCore_paged conn cfg ap whr env r h, h2]

/-- C5: a non-success transport status on any page aborts the whole query
with a `RequestError` carrying that status code and the raw body, and no
partial result is returned; a success status (the source accepts exactly
status 200) raises no `RequestError` for that page.  Stated as: a successful
query saw status 200 on every page; every page before the last saw status
200 (a non-success page is always the last one fetched); and if the last
recorded page has a non-success status the query result is exactly the
request error for that response. -/
theorem claim_C5 (conn : Connector) (cfg : PagConfig) (ap : Option VarMap)
    (whr : VarMap) (env : QEnv) :
    (∀ df, (query conn cfg ap whr env).res = .ok df →
      ∀ c ∈ (query conn cfg ap whr env).calls, c.resp.status_code = 200) ∧
    (∀ c ∈ (query conn cfg ap whr env).calls.dropLast,
      c.resp.status_code = 200) ∧
    (∀ s t, ((query conn cfg ap whr env).calls.getLast?).map
        (fun c => (c.resp.status_code, c.resp.text)) = some (s, t) →
      s ≠ 200 →
      (query conn cfg ap whr env).res = .error (.requestError s t)) := by
  cases hw : vget whr "returned_number" with
  | none =>
    rw [query_nototal conn cfg ap whr env hw]
    refine ⟨?_, ?_, ?_⟩
    · intro df hres c hc
      rw [List.mem_singleton] at hc
      subst hc
      by_cases hs : (fetch conn.vars cfg.count_key (effAuth conn.auth_params ap)
          (vset whr "returned_number" (.vInt cfg.max_count))
          env).1.resp.status_code = 200
      · exact hs
      · obtain ⟨-, herr⟩ := query_nototal_err conn cfg ap whr env hw hs
        rw [herr] at hres
        exact Except.noConfusion hres
    · intro c hc
      exact absurd hc (List.not_mem_nil c)
    · intro s t hmap hs
      simp only [List.getLast?_singleton, Option.map_some', Option.some.injEq,
        Prod.mk.injEq] at hmap
      obtain ⟨hs2, ht2⟩ := hmap
      have hns : (fetch conn.vars cfg.count_key (effAuth conn.auth_params ap)
          (vset whr "returned_number" (.vInt cfg.max_count))
          env).1.resp.status_code ≠ 200 := by
        rw [hs2]
        exact hs
      obtain ⟨-, herr⟩ := query_nototal_err conn cfg ap whr env hw hns
      rw [herr, hs2, ht2]
  | some v =>
    cases v with
    | vStr sv =>
      have hcalls : (query conn cfg ap whr env).calls = [] := by
        rw [query_calls_eq, queryCore_str conn cfg ap whr env sv hw]
      have hres : (query conn cfg ap whr env).res = .error .typeError := by
        rw [query_res_eq, queryCore_str conn cfg ap whr env sv hw]
      rw [hcalls]
      refine ⟨?_, ?_, ?_⟩
      · intro df hok
        rw [hres] at hok
        exact Except.noConfusion hok
      · intro c hc
        exact absurd hc (List.not_mem_nil c)
      · intro s t hmap hs
        simp at hmap
    | vInt r =>
      have h5 := runFrom_c5 cfg env conn.vars (effAuth conn.auth_params ap)
        (pyCeil r cfg.max_count) (r.emod cfg.max_count)
        (pyCeil r cfg.max_count).toNat 0 ⟨whr, 0, none, [], []⟩
        (pagedRun conn cfg ap whr env r).1 (pagedRun conn cfg ap whr env r).2
        rfl (by intro c hc0; exact absurd hc0 (List.not_mem_nil c))
      rw [query_paged_calls conn cfg ap whr env r hw]
      refine ⟨?_, ?_, ?_⟩
      · intro df hres c hc
        obtain ⟨hrun, -, -, -⟩ :=
          query_paged_ok conn cfg ap whr env r df hw hres
        exact h5.1 hrun c hc
      · intro c hc
        cases h2 : (pagedRun conn cfg ap whr env r).2 with
        | none =>
          exact h5.1 h2 c (List.dropLast_subset _ hc)
        | some e =>
          exact (h5.2 e h2).1 c hc
      · intro s t hmap hs
        obtain ⟨c, hlast, hproj⟩ := Option.map_eq_some'.1 hmap
        have hs2 : c.resp.status_code = s := (Prod.mk.injEq _ _ _ _ ▸ hproj).1
        have ht2 : c.resp.text = t := (Prod.mk.injEq _ _ _ _ ▸ hproj).2
        have hns : c.resp.status_code ≠ 200 := by
          rw [hs2]
          exact hs
        cases h2 : (pagedRun conn cfg ap whr env r).2 with
        | none =>
          exfalso
          have hmem : c ∈ (pagedRun conn cfg ap whr env r).1.calls := by
            obtain ⟨hne, hx⟩ := List.mem_getLast?_eq_getLast
              (show c ∈ ((pagedRun conn cfg ap whr env r).1.calls).getLast?
                from hlast)
            rw [hx]
            exact List.getLast_mem hne
          exact hns (h5.1 h2 c hmem)
        | some e =>
          have he := (h5.2 e h2).2 c hlast hns
          rw [query_paged_err conn cfg ap whr env r e hw h2, he, hs2, ht2]

/-- A transport that always fails with status 500 and body `"boom"`. -/
def cexEnvFail : QEnv :=
  ⟨fun _ _ => ⟨500, "boom"⟩, fun _ => ⟨[0], [[("id", Val.vInt 10)]]⟩⟩

/-- Witness for C5: a failing transport makes the whole query return the
request error with the status code and body of the failing response. -/
theorem claim_C5_witness :
    (query cexConn cexCfgNone none [("returned_number", Val.vInt 2)]
      cexEnvFail).res = .error (.requestError 500 "boom") :=
  (claim_C5 cexConn cexCfgNone none [("returned_number", Val.vInt 2)]
    cexEnvFail).2.2 500 "boom" rfl (by decide)

/-! Accumulation of pages into the final table. -/

/-- On success the accumulator of the paged loop is `none` exactly when no
page was decoded, and otherwise holds the row-wise concatenation of all
decoded pages, original index labels kept. -/
theorem paged_concat (conn : Connector) (cfg : PagConfig) (ap : Option VarMap)
    (whr : VarMap) (env : QEnv) (r : Int)
    (hrun : (pagedRun conn cfg ap whr env r).2 = none) :
    ((pagedRun conn cfg ap whr env r).1.pages = [] →
      (pagedRun conn cfg ap whr env r).1.acc = none) ∧
    ((pagedRun conn cfg ap whr env r).1.pages ≠ [] →
      (pagedRun conn cfg ap whr env r).1.acc =
        some ⟨(((pagedRun conn cfg ap whr env r).1.pages.map
            DataFrame.index).flatten),
          (((pagedRun conn cfg ap whr env r).1.pages.map
            DataFrame.rows).flatten)⟩) := by
  have heq : pagedRun conn cfg ap whr env r =
      ((pagedRun conn cfg ap whr env r).1, none) := by
    rw [← hrun]
  unfold pagedRun at heq
  have key := runFrom_inv cfg env conn.vars (effAuth conn.auth_params ap)
    (pyCeil r cfg.max_count) (r.emod cfg.max_count)
    (fun i st => st.pages.length = i ∧
      (i = 0 → st.acc = none) ∧
      (i ≠ 0 → st.acc = some ⟨((st.pages.map DataFrame.index).flatten),
        ((st.pages.map DataFrame.rows).flatten)⟩))
    (by
      intro i st st1 hI hps
      obtain ⟨call, -, -, -, -, -, hok, -⟩ :=
        pageStep_shape cfg env conn.vars (effAuth conn.auth_params ap)
          (pyCeil r cfg.max_count) (r.emod cfg.max_count) i st st1 none hps
      obtain ⟨-, hpg, hacc, -, -⟩ := hok rfl
      refine ⟨by rw [hpg, List.length_append, hI.1]; rfl, ?_, ?_⟩
      · intro h0
        exact absurd h0 (Nat.succ_ne_zero i)
      · intro _hne0
        by_cases hi : i = 0
        · subst hi
          have hp0 : st.pages = [] := List.length_eq_zero.1 hI.1
          rw [hacc, if_pos rfl, hpg, hp0]
          simp
        · have hJ := hI.2.2 hi
          rw [hacc, if_neg hi, hJ, hpg]
          simp [dfConcat, List.map_append, List.flatten_append])
    (pyCeil r cfg.max_count).toNat 0 ⟨whr, 0, none, [], []⟩
    (pagedRun conn cfg ap whr env r).1 heq
    ⟨rfl, fun _ => rfl, fun h => absurd rfl h⟩
  refine ⟨?_, ?_⟩
  · intro hp
    apply key.2.1
    rw [← key.1, hp]
    rfl
  · intro hp
    apply key.2.2
    rw [← key.1]
    intro h0
    exact hp (List.length_eq_zero.1 h0)

/-- A decoder whose output carries the non-dense index label 5. -/
def cexEnvIdx5 : QEnv :=
  ⟨fun _ _ => ⟨200, ""⟩, fun _ => ⟨[5], [[("a", Val.vInt 1)]]⟩⟩

/-- Counterexample for C6 as stated: in the single-page branch without a
caller-requested total, the returned table keeps the index of the decoded
page (here the label 5); it is not reassigned to the dense 0-based sequence
(which would be `[0]` for one row). -/
theorem claim_C6_counterexample :
    ((query cexConn cexCfgNone none [] cexEnvIdx5).res.map
      (fun d => d.index)) = .ok [(5 : Int)] ∧
    [(5 : Int)] ≠ (List.range 1).map Int.ofNat := by
  exact ⟨rfl, by decide⟩

/-- C6 (amended): in the paged branch (caller requested a total row count),
a successful query returns the concatenation of the decoded pages in
page-emission order with intra-page row order preserved, its row count the
sum of the per-page row counts, and its row index reassigned to the dense
0-based sequence.  In the single-page branch without a requested total, the
decoded page is returned as is: its index is not reassigned. -/
theorem claim_C6_amended (conn : Connector) (cfg : PagConfig)
    (ap : Option VarMap) (whr : VarMap) (env : QEnv) :
    (∀ r df, vget whr "returned_number" = some (.vInt r) →
      (query conn cfg ap whr env).res = .ok df →
      df.rows = (((query conn cfg ap whr env).pages.map
        DataFrame.rows).flatten) ∧
      df.index = (List.range df.rows.length).map Int.ofNat ∧
      df.rows.length = ((query conn cfg ap whr env).pages.map
        (fun p => p.rows.length)).sum) ∧
    (∀ df, vget whr "returned_number" = none →
      (query conn cfg ap whr env).res = .ok df →
      (query conn cfg ap whr env).pages = [df]) := by
  constructor
  · intro r df hw hres
    obtain ⟨hrun, -, hpages, J, hacc, hdf⟩ :=
      query_paged_ok conn cfg ap whr env r df hw hres
    obtain ⟨hemp, hfull⟩ := paged_concat conn cfg ap whr env r hrun
    have hne : (pagedRun conn cfg ap whr env r).1.pages ≠ [] := by
      intro h0
      rw [hemp h0] at hacc
      exact Option.noConfusion hacc
    have hJ := hfull hne
    rw [hacc] at hJ
    injection hJ with hJ2
    rw [hpages, hdf, hJ2]
    refine ⟨rfl, rfl, ?_⟩
    rw [resetIndex]
    dsimp only
    rw [List.length_flatten, List.map_map]
    rfl
  · intro df hw hres
    by_cases hs : (fetch conn.vars cfg.count_key (effAuth conn.auth_params ap)
        (vset whr "returned_number" (.vInt cfg.max_count))
        env).1.resp.status_code = 200
    · obtain ⟨hpages, hok⟩ := query_nototal_ok conn cfg ap whr env hw hs
      rw [hok] at hres
      injection hres with h2
      rw [hpages, h2]
    · obtain ⟨-, herr⟩ := query_nototal_err conn cfg ap whr env hw hs
      rw [herr] at hres
      exact Except.noConfusion hres

/-- The merged table of the three-page offset scenario of the C6 witness. -/
def c6wdf : DataFrame :=
  ⟨[0, 1, 2], [[("id", Val.vInt 10)], [("id", Val.vInt 10)],
    [("id", Val.vInt 10)]]⟩

/-- Witness for the amended C6: three pages of one row each merge into a
three-row table with dense index `[0, 1, 2]`. -/
theorem claim_C6_witness :
    c6wdf.rows = (((query cexConn cexCfgLim none
      [("returned_number", Val.vInt 5)] cexEnvOk).pages.map
        DataFrame.rows).flatten) ∧
    c6wdf.index = (List.range c6wdf.rows.length).map Int.ofNat ∧
    c6wdf.rows.length = ((query cexConn cexCfgLim none
      [("returned_number", Val.vInt 5)] cexEnvOk).pages.map
        (fun p => p.rows.length)).sum :=
  (claim_C6_amended cexConn cexCfgLim none
    [("returned_number", Val.vInt 5)] cexEnvOk).1 5 c6wdf rfl rfl

/-! The cursor strategy. -/

/-- On success the cursor strategy injects, at every page after the first,
the integer extracted from the label `len − 1` lookup on the previous page,
minus two (the source decrements once when storing `last_id` and once more
when injecting); the first page carries whatever the caller passed under the
cursor key. -/
theorem paged_cursor (conn : Connector) (cfg : PagConfig) (ap : Option VarMap)
    (whr : VarMap) (env : QEnv) (r : Int)
    (hcur : cfg.pag_type = "cursor")
    (hck : cfg.cursor_key ≠ "returned_number")
    (hrun : (pagedRun conn cfg ap whr env r).2 = none) :
    (∀ c : PageCall, (pagedRun conn cfg ap whr env r).1.calls[0]? = some c →
      vget c.kwargs cfg.cursor_key = vget whr cfg.cursor_key) ∧
    (∀ (t : Nat) (c : PageCall) (d : DataFrame),
      (pagedRun conn cfg ap whr env r).1.calls[t + 1]? = some c →
      (pagedRun conn cfg ap whr env r).1.pages[t]? = some d →
      ∃ n, lastLabelInt d cfg.cursor_id = .ok n ∧
        vget c.kwargs cfg.cursor_key = some (.vInt (n - 2))) := by
  have heq : pagedRun conn cfg ap whr env r =
      ((pagedRun conn cfg ap whr env r).1, none) := by
    rw [← hrun]
  unfold pagedRun at heq
  have key := runFrom_inv cfg env conn.vars (effAuth conn.auth_params ap)
    (pyCeil r cfg.max_count) (r.emod cfg.max_count)
    (fun i st => st.calls.length = i ∧ st.pages.length = i ∧
      (i = 0 → st.whr = whr) ∧
      (∀ c : PageCall, st.calls[0]? = some c →
        vget c.kwargs cfg.cursor_key = vget whr cfg.cursor_key) ∧
      (∀ (t : Nat) (c : PageCall) (d : DataFrame),
        st.calls[t + 1]? = some c → st.pages[t]? = some d →
        ∃ n, lastLabelInt d cfg.cursor_id = .ok n ∧
          vget c.kwargs cfg.cursor_key = some (.vInt (n - 2))) ∧
      (i ≠ 0 → ∃ d n, st.pages[i - 1]? = some d ∧
        lastLabelInt d cfg.cursor_id = .ok n ∧ st.last_id = n - 1))
    (by
      intro i st st1 hI hps
      obtain ⟨hlenC, hlenP, hwhr0, hpage0, hpairs, hlast⟩ := hI
      obtain ⟨call, -, hcalls, hkw, -, -, hok, -⟩ :=
        pageStep_shape cfg env conn.vars (effAuth conn.auth_params ap)
          (pyCeil r cfg.max_count) (r.emod cfg.max_count) i st st1 none hps
      obtain ⟨-, hpg, -, hcursor, -⟩ := hok rfl
      obtain ⟨n, hext, hlid⟩ := hcursor hcur
      refine ⟨by rw [hcalls, List.length_append, hlenC]; rfl,
        by rw [hpg, List.length_append, hlenP]; rfl,
        fun h0 => absurd h0 (Nat.succ_ne_zero i), ?_, ?_, ?_⟩
      · intro c hc
        rw [hcalls] at hc
        by_cases hi : i = 0
        · subst hi
          have hc0 : st.calls = [] := List.length_eq_zero.1 hlenC
          rw [hc0, List.nil_append] at hc
          simp only [List.getElem?_cons_zero, Option.some.injEq] at hc
          subst hc
          rw [hkw, hwhr0 rfl]
          exact stepKwargs_cursor_zero cfg (pyCeil r cfg.max_count)
            (r.emod cfg.max_count) st.last_id whr hcur hck
        · have h0lt : 0 < st.calls.length := by omega
          rw [List.getElem?_append_left h0lt] at hc
          exact hpage0 c hc
      · intro t c d hc hd
        rw [hcalls] at hc
        rw [hpg] at hd
        by_cases ht : t + 1 < st.calls.length
        · rw [List.getElem?_append_left ht] at hc
          have htd : t < st.pages.length := by omega
          rw [List.getElem?_append_left htd] at hd
          exact hpairs t c d hc hd
        · have htlt : t + 1 < st.calls.length + 1 := by
            by_contra hge
            push_neg at hge
            rw [List.getElem?_eq_none (by simpa using hge)] at hc
            exact Option.noConfusion hc
          have ht2 : t + 1 = st.calls.length := by omega
          have hine : i ≠ 0 := by omega
          obtain ⟨d0, n0, hd0, hext0, hlid0⟩ := hlast hine
          have htd : t = i - 1 := by omega
          have hdget : (st.pages ++
              [env.from_response call.resp])[t]? = some d0 := by
            rw [List.getElem?_append_left (by omega), htd]
            exact hd0
          have hdd : d = d0 := by
            rw [hdget] at hd
            injection hd with hdd
            exact hdd.symm
          subst hdd
          rw [ht2, List.getElem?_concat_length] at hc
          injection hc with hc2
          subst hc2
          refine ⟨n0, hext0, ?_⟩
          rw [hkw, stepKwargs_cursor_pos cfg (pyCeil r cfg.max_count)
            (r.emod cfg.max_count) i st.last_id st.whr hcur (by omega),
            hlid0]
          congr 2
          omega
      · intro _hne
        refine ⟨env.from_response call.resp, n, ?_, hext, hlid⟩
        rw [hpg]
        have hidx : i + 1 - 1 = st.pages.length := by omega
        rw [hidx]
        exact List.getElem?_concat_length _ _)
    (pyCeil r cfg.max_count).toNat 0 ⟨whr, 0, none, [], []⟩
    (pagedRun conn cfg ap whr env r).1 heq
    ⟨rfl, rfl, fun _ => rfl,
      (by
        intro c hc
        rw [show (⟨whr, 0, none, [], []⟩ : LoopSt).calls = [] from rfl,
          List.getElem?_nil] at hc
        exact Option.noConfusion hc),
      (by
        intro t c d hc _hd
        rw [show (⟨whr, 0, none, [], []⟩ : LoopSt).calls = [] from rfl,
          List.getElem?_nil] at hc
        exact Option.noConfusion hc),
      fun h => absurd rfl h⟩
  exact ⟨key.2.2.2.1, key.2.2.2.2.1⟩

/-- Counterexample for C1 as stated: with the cursor strategy, a page whose
last row carries cursor value 10 is followed by a page whose injected cursor
parameter is 8, not `10 - 1 = 9`: the source decrements twice (once when
storing `last_id = int(...) - 1` and once more when injecting
`last_id - 1`). -/
theorem claim_C1_counterexample :
    (((query cexConn cexCfgCur none [("returned_number", Val.vInt 2)]
        cexEnvOk).calls[1]?).map (fun c => vget c.kwargs "cur")) =
      some (some (Val.vInt 8)) ∧
    lastLabelInt ((query cexConn cexCfgCur none
      [("returned_number", Val.vInt 2)] cexEnvOk).pages.getD 0 ⟨[], []⟩)
      "id" = .ok 10 ∧
    some (some (Val.vInt 8)) ≠ some (some (Val.vInt (10 - 1))) := by
  exact ⟨rfl, rfl, by decide⟩

/-- C1 (amended): for the cursor strategy (with the cursor parameter name
distinct from the reserved count name and not supplied by the caller), page
0 of a successful query carries no cursor parameter, and every page `i > 0`
carries the cursor parameter equal to the integer value of the cursor source
column at index label `len − 1` of page `i − 1`, minus TWO — the source
decrements once when capturing `last_id` and once more when injecting. -/
theorem claim_C1_amended (conn : Connector) (cfg : PagConfig)
    (ap : Option VarMap) (whr : VarMap) (env : QEnv) (r : Int) (df : DataFrame)
    (hcur : cfg.pag_type = "cursor")
    (hck : cfg.cursor_key ≠ "returned_number")
    (hwhr0 : vget whr cfg.cursor_key = none)
    (hwhr : vget whr "returned_number" = some (.vInt r))
    (hres : (query conn cfg ap whr env).res = .ok df) :
    (∀ c : PageCall, (query conn cfg ap whr env).calls[0]? = some c →
      vget c.kwargs cfg.cursor_key = none) ∧
    (∀ (t : Nat) (c : PageCall) (d : DataFrame),
      (query conn cfg ap whr env).calls[t + 1]? = some c →
      (query conn cfg ap whr env).pages[t]? = some d →
      ∃ n, lastLabelInt d cfg.cursor_id = .ok n ∧
        vget c.kwargs cfg.cursor_key = some (.vInt (n - 2))) := by
  obtain ⟨hrun, hcalls, hpages, -⟩ :=
    query_paged_ok conn cfg ap whr env r df hwhr hres
  obtain ⟨hpage0, hpairs⟩ := paged_cursor conn cfg ap whr env r hcur hck hrun
  rw [hcalls, hpages]
  refine ⟨?_, hpairs⟩
  intro c hc
  rw [hpage0 c hc]
  exact hwhr0

/-- Witness for the amended C1: a two-page cursor query whose first page has
cursor value 10 in its last row injects `10 - 2 = 8` on page 1 and nothing
on page 0. -/
theorem claim_C1_witness :
    cexCfgCur.pag_type = "cursor" ∧
    vget [("returned_number", Val.vInt 2)] cexCfgCur.cursor_key = none ∧
    ((∀ c : PageCall, (query cexConn cexCfgCur none
        [("returned_number", Val.vInt 2)] cexEnvOk).calls[0]? = some c →
      vget c.kwargs cexCfgCur.cursor_key = none) ∧
    (∀ (t : Nat) (c : PageCall) (d : DataFrame),
      (query cexConn cexCfgCur none
        [("returned_number", Val.vInt 2)] cexEnvOk).calls[t + 1]? = some c →
      (query cexConn cexCfgCur none
        [("returned_number", Val.vInt 2)] cexEnvOk).pages[t]? = some d →
      ∃ n, lastLabelInt d cexCfgCur.cursor_id = .ok n ∧
        vget c.kwargs cexCfgCur.cursor_key = some (.vInt (n - 2)))) := by
  refine ⟨rfl, rfl, ?_⟩
  exact claim_C1_amended cexConn cexCfgCur none
    [("returned_number", Val.vInt 2)] cexEnvOk 2
    ⟨[0, 1], [[("id", Val.vInt 10)], [("id", Val.vInt 10)]]⟩
    rfl (by decide) rfl rfl rfl

end DataPrep
